import Mathlib

/-!
Verification of the Inventory_system core (src/app.py): the Product
hierarchy and the Inventory store, shallowly embedded in Lean.

Modelling conventions:
* Python ints are `ℤ`; prices (Python floats entered as decimals) are `ℚ`.
* A raised exception is an `Err` value returned next to the post-state
  `(State × Option Err)`: `none` means normal return, `some e` means the
  exception `e` was raised with the state as it stood at the raise site.
  `Err.InsufficientStock` is `Exception "Not enough stock to sell"`,
  `Err.DuplicateId` is `Exception "Duplicate product ID"`,
  `Err.UnknownProduct` is the `KeyError` raised by `self._products[pid]`
  on an absent key, and `Err.KeyError` is the `KeyError` raised by
  `item[...]` on a record missing a required field in `load_from_file`.
* The Python dict `self._products` is an association list with the usual
  dict semantics: assignment to an existing key overwrites in place,
  assignment to a fresh key appends.  Dict keys are unique; theorems that
  need this carry the `KeysNodup` hypothesis.
* An ISO `"YYYY-MM-DD"` expiry string is modelled by its day number
  (`ℤ`); `datetime.strptime(s, "%Y-%m-%d")` yields that day at midnight,
  and `datetime.today()` is a `DateTime`: a day plus a time-of-day.
* Python `str.lower()` is modelled by character-wise ASCII lowering.
* File I/O is abstracted away: `save_to_file` returns the document
  (list of records) it writes, `load_from_file` takes the document read.
-/

namespace InvSys

/-- The exception kinds the core can raise (see the module docstring for
the mapping to the exceptions of `src/app.py`). -/
inductive Err where
  | InsufficientStock
  | DuplicateId
  | UnknownProduct
  | KeyError
deriving DecidableEq

/-- The three concrete product variants with their extra attributes
(`Electronics.brand/warranty_years`, `Grocery.expiry_date`,
`Clothing.size/material`). -/
inductive Variant where
  | Electronics (brand : String) (warranty_years : ℤ)
  | Grocery (expiry_date : ℤ)
  | Clothing (size : String) (material : String)
deriving DecidableEq

/-- One stocked item: the fields of the `Product` base class plus the
variant payload (`p.__class__` with its extra attributes). -/
structure Product where
  product_id : String
  name : String
  price : ℚ
  quantity_in_stock : ℤ
  variant : Variant
deriving DecidableEq

/-- `p.__class__.__name__`: the variant discriminator. -/
def Product.typeName (p : Product) : String :=
  match p.variant with
  | .Electronics _ _ => "Electronics"
  | .Grocery _ => "Grocery"
  | .Clothing _ _ => "Clothing"

/-- `Product.restock`: `self._quantity_in_stock += amount`. -/
def Product.restock (p : Product) (amount : ℤ) : Product :=
  { p with quantity_in_stock := p.quantity_in_stock + amount }

/-- `Product.sell`: raises `InsufficientStock` when
`quantity > self._quantity_in_stock`, otherwise decrements. -/
def Product.sell (p : Product) (quantity : ℤ) : Product × Option Err :=
  if quantity > p.quantity_in_stock then (p, some .InsufficientStock)
  else ({ p with quantity_in_stock := p.quantity_in_stock - quantity }, none)

/-- `Product.get_total_value`: `self._price * self._quantity_in_stock`. -/
def Product.get_total_value (p : Product) : ℚ :=
  p.price * p.quantity_in_stock

/-- A moment in time: a day number plus the seconds elapsed since that
day's midnight.  `datetime.today()` yields one of these. -/
structure DateTime where
  day : ℤ
  sec : ℕ
deriving DecidableEq

/-- Python `datetime` comparison: lexicographic on (day, time-of-day). -/
def DateTime.ltb (a b : DateTime) : Bool :=
  decide (a.day < b.day) || (decide (a.day = b.day) && decide (a.sec < b.sec))

/-- `datetime.strptime(expiry_date, "%Y-%m-%d")`: the expiry day at
midnight (time fields zero). -/
def strptime (day : ℤ) : DateTime := ⟨day, 0⟩

/-- `Grocery.is_expired`, with the wall clock (`datetime.today()`)
passed explicitly:
`datetime.strptime(self.expiry_date, "%Y-%m-%d") < datetime.today()`. -/
def Grocery.is_expired (expiry_date : ℤ) (today : DateTime) : Bool :=
  DateTime.ltb (strptime expiry_date) today

/-- `isinstance(p, Grocery) and p.is_expired()`. -/
def Product.isExpiredGrocery (p : Product) (today : DateTime) : Bool :=
  match p.variant with
  | .Grocery d => Grocery.is_expired d today
  | _ => false

/-- Python `str.lower()`, character-wise (ASCII case folding). -/
def pyLower (s : String) : String :=
  ⟨s.data.map Char.toLower⟩

/-- The flat serialized form of one product (`to_dict` output / one JSON
record): the `type` discriminator and the common fields are always
present, the variant fields are present when the writer emitted them. -/
structure Record where
  type : String
  product_id : String
  name : String
  price : ℚ
  quantity_in_stock : ℤ
  brand : Option String
  warranty_years : Option ℤ
  expiry_date : Option ℤ
  size : Option String
  material : Option String
deriving DecidableEq

/-- `Product.to_dict` plus the subclass overrides: the common fields,
the `type` discriminator, and the variant's own fields. -/
def Product.to_dict (p : Product) : Record :=
  match p.variant with
  | .Electronics b w =>
      ⟨"Electronics", p.product_id, p.name, p.price, p.quantity_in_stock,
        some b, some w, none, none, none⟩
  | .Grocery d =>
      ⟨"Grocery", p.product_id, p.name, p.price, p.quantity_in_stock,
        none, none, some d, none, none⟩
  | .Clothing sz m =>
      ⟨"Clothing", p.product_id, p.name, p.price, p.quantity_in_stock,
        none, none, none, some sz, some m⟩

/-- The per-record dispatch of `load_from_file`: on a known `type` it
builds the matching variant (`.ok (some p)`), an unknown `type` is
skipped (`continue`, `.ok none`), and a known `type` missing one of its
variant fields raises `KeyError` (`item["brand"]` etc.). -/
def Product.from_record (item : Record) : Except Err (Option Product) :=
  if item.type = "Electronics" then
    match item.brand, item.warranty_years with
    | some b, some w =>
        .ok (some ⟨item.product_id, item.name, item.price,
          item.quantity_in_stock, .Electronics b w⟩)
    | _, _ => .error .KeyError
  else if item.type = "Grocery" then
    match item.expiry_date with
    | some d =>
        .ok (some ⟨item.product_id, item.name, item.price,
          item.quantity_in_stock, .Grocery d⟩)
    | none => .error .KeyError
  else if item.type = "Clothing" then
    match item.size, item.material with
    | some sz, some m =>
        .ok (some ⟨item.product_id, item.name, item.price,
          item.quantity_in_stock, .Clothing sz m⟩)
    | _, _ => .error .KeyError
  else .ok none

/-- Entries of the `self._products` dict, in insertion order. -/
abbrev Entries := List (String × Product)

/-- `pid in self._products`. -/
def keyMem (l : Entries) (k : String) : Bool :=
  l.any (fun kv => kv.1 == k)

/-- `self._products[pid]`, as an `Option` (a `none` lookup raises
`KeyError` at the use site). -/
def keyFind (l : Entries) (k : String) : Option Product :=
  (l.find? (fun kv => kv.1 == k)).map (·.2)

/-- `self._products[k] = v`: overwrite in place when `k` is a key,
append otherwise (Python dict assignment). -/
def dictInsert (l : Entries) (k : String) (v : Product) : Entries :=
  if keyMem l k then l.map (fun kv => if kv.1 == k then (k, v) else kv)
  else l ++ [(k, v)]

/-- `del self._products[k]`. -/
def dictDel (l : Entries) (k : String) : Entries :=
  l.filter (fun kv => !(kv.1 == k))

/-- The `Inventory` class: its `_products` dict. -/
structure Inventory where
  products : Entries
deriving DecidableEq

/-- Dict well-formedness: keys are pairwise distinct (automatic for a
Python dict, a side condition for the association-list model). -/
def Inventory.KeysNodup (inv : Inventory) : Prop :=
  (inv.products.map (·.1)).Nodup

instance (inv : Inventory) : Decidable inv.KeysNodup := by
  unfold Inventory.KeysNodup; infer_instance

/-- `Inventory.add_product`: raises `DuplicateId` when the id is already
a key, otherwise stores the product under its own id. -/
def Inventory.add_product (inv : Inventory) (p : Product) :
    Inventory × Option Err :=
  if keyMem inv.products p.product_id then (inv, some .DuplicateId)
  else (⟨dictInsert inv.products p.product_id p⟩, none)

/-- `Inventory.remove_product`: deletes the key when present, silent
no-op otherwise. -/
def Inventory.remove_product (inv : Inventory) (pid : String) : Inventory :=
  ⟨dictDel inv.products pid⟩

/-- `Inventory.search_by_type`: the products whose class name equals the
query, both sides lowered. -/
def Inventory.search_by_type (inv : Inventory) (product_type : String) :
    List Product :=
  (inv.products.map (·.2)).filter
    (fun p => pyLower p.typeName == pyLower product_type)

/-- `Inventory.sell_product`: `self._products[pid].sell(q)` — `KeyError`
(the spec's `UnknownProduct`) on an absent key, otherwise the in-place
`sell` on the stored product. -/
def Inventory.sell_product (inv : Inventory) (pid : String) (quantity : ℤ) :
    Inventory × Option Err :=
  match keyFind inv.products pid with
  | none => (inv, some .UnknownProduct)
  | some p =>
      let r := p.sell quantity
      (⟨dictInsert inv.products pid r.1⟩, r.2)

/-- `Inventory.restock_product`: `self._products[pid].restock(q)` —
`KeyError` (the spec's `UnknownProduct`) on an absent key, otherwise the
in-place `restock`. -/
def Inventory.restock_product (inv : Inventory) (pid : String) (quantity : ℤ) :
    Inventory × Option Err :=
  match keyFind inv.products pid with
  | none => (inv, some .UnknownProduct)
  | some p => (⟨dictInsert inv.products pid (p.restock quantity)⟩, none)

/-- `Inventory.total_inventory_value`: the sum of `get_total_value()`
over the stored products. -/
def Inventory.total_inventory_value (inv : Inventory) : ℚ :=
  (inv.products.map (fun kv => kv.2.get_total_value)).sum

/-- `Inventory.remove_expired_products`: collect the ids of the expired
`Grocery` products, then delete each collected id. -/
def Inventory.remove_expired_products (inv : Inventory) (today : DateTime) :
    Inventory :=
  let expired :=
    (inv.products.filter (fun kv => kv.2.isExpiredGrocery today)).map (·.1)
  ⟨expired.foldl (fun l pid => dictDel l pid) inv.products⟩

/-- `Inventory.save_to_file`: the document written, i.e. the `to_dict`
records of the stored products in iteration order. -/
def Inventory.save_to_file (inv : Inventory) : List Record :=
  inv.products.map (fun kv => kv.2.to_dict)

/-- `Inventory.load_from_file`: for each record of the document,
reconstruct the variant from the `type` tag and store it under its id
(overwriting an existing id); unknown types are skipped; a `KeyError`
aborts the loop with the inserts made so far kept. -/
def Inventory.load_from_file (inv : Inventory) (data : List Record) :
    Inventory × Option Err :=
  match data with
  | [] => (inv, none)
  | item :: rest =>
      match Product.from_record item with
      | .error e => (inv, some e)
      | .ok none => inv.load_from_file rest
      | .ok (some p) =>
          Inventory.load_from_file ⟨dictInsert inv.products p.product_id p⟩ rest

/-- All stored stock levels are non-negative. -/
def Inventory.AllNonneg (inv : Inventory) : Prop :=
  ∀ kv ∈ inv.products, 0 ≤ kv.2.quantity_in_stock

instance (inv : Inventory) : Decidable inv.AllNonneg := by
  unfold Inventory.AllNonneg; infer_instance

/- Sample values used by the witness theorems. -/

def sampleP : Product := ⟨"E1", "Phone", 500, 10, .Electronics "Acme" 2⟩

def sampleG : Product := ⟨"G1", "Milk", 2, 5, .Grocery 0⟩

def sampleInv : Inventory := ⟨[("E1", sampleP)]⟩

def sampleInv2 : Inventory := ⟨[("G1", sampleG), ("E1", sampleP)]⟩

/- Association-list lemmas for the dict model. -/

lemma keyFind_eq_none {l : Entries} {k : String} :
    keyFind l k = none ↔ keyMem l k = false := by
  unfold keyFind keyMem
  simp [List.find?_eq_none, List.any_eq_false]

lemma keyFind_mem {l : Entries} {k : String} {p : Product}
    (h : keyFind l k = some p) : (k, p) ∈ l := by
  unfold keyFind at h
  rcases Option.map_eq_some'.1 h with ⟨kv, hfind, hsnd⟩
  have hmem := List.mem_of_find?_eq_some hfind
  have hpred := List.find?_some hfind
  have h1 : kv.1 = k := by simpa using hpred
  have : kv = (k, p) := by
    cases kv; simp_all
  rwa [this] at hmem

lemma key_unique {l : Entries} (hnd : (l.map (·.1)).Nodup)
    {k : String} {a b : Product} (ha : (k, a) ∈ l) (hb : (k, b) ∈ l) :
    a = b := by
  induction l with
  | nil => simp at ha
  | cons kv rest ih =>
      rw [List.map_cons, List.nodup_cons] at hnd
      rcases List.mem_cons.1 ha with h1 | h1 <;>
        rcases List.mem_cons.1 hb with h2 | h2
      · rw [← h2] at h1; injection h1
      · exact absurd (by simpa using List.mem_map_of_mem (·.1) h2)
          (by rw [← h1] at hnd; simpa using hnd.1)
      · exact absurd (by simpa using List.mem_map_of_mem (·.1) h1)
          (by rw [← h2] at hnd; simpa using hnd.1)
      · exact ih hnd.2 h1 h2

lemma dictInsert_mem_self {l : Entries} {k : String} {p : Product}
    (hnd : (l.map (·.1)).Nodup) (h : (k, p) ∈ l) :
    dictInsert l k p = l := by
  unfold dictInsert
  rw [if_pos (by unfold keyMem; rw [List.any_eq_true]; exact ⟨(k, p), h, by simp⟩)]
  have : ∀ kv ∈ l, (if kv.1 == k then (k, p) else kv) = kv := by
    intro kv hkv
    by_cases hk : kv.1 = k
    · have : kv = (k, p) := by
        cases kv with
        | mk k1 v1 =>
          simp at hk
          subst hk
          exact congrArg ((k1, ·)) (key_unique hnd hkv h)
      simp [this]
    · simp [hk]
  simpa using List.map_congr_left this

lemma mem_dictInsert {l : Entries} {k : String} {v : Product}
    {kv : String × Product}
    (h : kv ∈ dictInsert l k v) : kv = (k, v) ∨ kv ∈ l := by
  unfold dictInsert at h
  split at h
  · rcases List.mem_map.1 h with ⟨kv', hkv', heq⟩
    by_cases hk : kv'.1 == k
    · left; rw [if_pos hk] at heq; exact heq.symm
    · right; rw [if_neg hk] at heq; exact heq ▸ hkv'
  · rcases List.mem_append.1 h with h1 | h1
    · right; exact h1
    · left; simpa using h1

lemma keyMem_append (l1 l2 : Entries) (k : String) :
    keyMem (l1 ++ l2) k = (keyMem l1 k || keyMem l2 k) := by
  unfold keyMem; rw [List.any_append]

lemma sell_fst_nonneg {p : Product} {q : ℤ} (hp : 0 ≤ p.quantity_in_stock) :
    0 ≤ (p.sell q).1.quantity_in_stock := by
  unfold Product.sell
  split
  · simpa
  · simp; omega

lemma foldl_dictDel_subset {pids : List String} {l : Entries}
    {kv : String × Product}
    (h : kv ∈ pids.foldl (fun l' pid => dictDel l' pid) l) : kv ∈ l := by
  induction pids generalizing l with
  | nil => simpa using h
  | cons pid rest ih =>
      have := ih (l := dictDel l pid) (by simpa using h)
      exact List.mem_of_mem_filter this

lemma foldl_dictDel_eq_filter (pids : List String) (l : Entries) :
    pids.foldl (fun l' pid => dictDel l' pid) l
      = l.filter (fun kv => !(pids.any (fun pid => kv.1 == pid))) := by
  induction pids generalizing l with
  | nil => simp
  | cons pid rest ih =>
      rw [List.foldl_cons, ih]
      unfold dictDel
      rw [List.filter_filter]
      congr 1
      funext kv
      simp [Bool.and_comm]

lemma isExpiredGrocery_of_typeName {p : Product} {today : DateTime}
    (h : p.typeName ≠ "Grocery") : p.isExpiredGrocery today = false := by
  unfold Product.isExpiredGrocery
  unfold Product.typeName at h
  rcases hv : p.variant <;> simp [hv] at h ⊢

lemma from_record_stock {item : Record} {p : Product}
    (h : Product.from_record item = .ok (some p)) :
    p.quantity_in_stock = item.quantity_in_stock := by
  unfold Product.from_record at h
  split_ifs at h
  all_goals
    first
    | (split at h <;> simp_all <;> rw [← h])
    | simp_all

lemma load_AllNonneg {data : List Record} {inv : Inventory}
    (hdoc : ∀ r ∈ data, 0 ≤ r.quantity_in_stock) (h : inv.AllNonneg) :
    (inv.load_from_file data).1.AllNonneg := by
  induction data generalizing inv with
  | nil => simpa [Inventory.load_from_file] using h
  | cons item rest ih =>
      rw [Inventory.load_from_file]
      split
      · exact h
      · exact ih (fun r hr => hdoc r (List.mem_cons_of_mem _ hr)) h
      · rename_i p hp
        refine ih (fun r hr => hdoc r (List.mem_cons_of_mem _ hr)) ?_
        intro kv hkv
        rcases mem_dictInsert hkv with h1 | h1
        · rw [h1]
          simpa [from_record_stock hp] using hdoc item (List.mem_cons_self _ _)
        · exact h kv h1

lemma to_dict_from_record (p : Product) :
    Product.from_record p.to_dict = .ok (some p) := by
  unfold Product.to_dict Product.from_record
  rcases hv : p.variant <;> simp [hv] <;> rw [← hv]

lemma load_save_aux (acc : Inventory) (l : Entries)
    (hids : ∀ kv ∈ l, kv.1 = kv.2.product_id)
    (hnd : (l.map (·.1)).Nodup)
    (hdisj : ∀ kv ∈ l, keyMem acc.products kv.1 = false) :
    acc.load_from_file (l.map (fun kv => kv.2.to_dict))
      = (⟨acc.products ++ l⟩, none) := by
  induction l generalizing acc with
  | nil => simp [Inventory.load_from_file]
  | cons kv rest ih =>
      rw [List.map_cons, Inventory.load_from_file]
      simp only [to_dict_from_record]
      rw [List.map_cons, List.nodup_cons] at hnd
      have hid : kv.1 = kv.2.product_id := hids kv (List.mem_cons_self _ _)
      have hmem : keyMem acc.products kv.2.product_id = false := by
        rw [← hid]; exact hdisj kv (List.mem_cons_self _ _)
      have hins : dictInsert acc.products kv.2.product_id kv.2
          = acc.products ++ [kv] := by
        unfold dictInsert
        rw [if_neg (by simp [hmem])]
        have : (kv.2.product_id, kv.2) = kv := Prod.ext hid.symm rfl
        rw [this]
      rw [hins]
      have := ih ⟨acc.products ++ [kv]⟩
        (fun kv' h => hids kv' (List.mem_cons_of_mem _ h)) hnd.2 ?_
      · rw [this]
        simp
      · intro kv' hkv'
        rw [keyMem_append]
        simp only [hdisj kv' (List.mem_cons_of_mem _ hkv'), Bool.false_or]
        unfold keyMem
        simp only [List.any_cons, List.any_nil, Bool.or_false]
        rw [beq_eq_false_iff_ne]
        intro he
        exact hnd.1 (he ▸ List.mem_map_of_mem (·.1) hkv')

/-- Claim C1: `Product.sell q` fails (raises) exactly when
`q > quantity_in_stock`, and then it raises `InsufficientStock` with the
product unchanged (no partial decrement); when `q ≤ quantity_in_stock`
it succeeds and the stock decreases by `q`.  In particular
`sell (quantity_in_stock + 1)` always fails and leaves the stock
unchanged. -/
theorem sell_spec (p : Product) (q : ℤ) :
    ((p.sell q).2 ≠ none ↔ q > p.quantity_in_stock) ∧
    (q > p.quantity_in_stock → p.sell q = (p, some .InsufficientStock)) ∧
    (q ≤ p.quantity_in_stock →
      p.sell q = ({ p with quantity_in_stock := p.quantity_in_stock - q }, none)) ∧
    p.sell (p.quantity_in_stock + 1) = (p, some .InsufficientStock) := by
  unfold Product.sell
  refine ⟨?_, ?_, ?_, ?_⟩
  · constructor
    · intro h
      by_contra hq
      simp [if_neg hq] at h
    · intro h; simp [if_pos h]
  · intro h; simp [if_pos h]
  · intro h; rw [if_neg (by omega)]
  · simp

/-- Witness for C1: a concrete failing sell and a concrete successful
sell of the sample product. -/
theorem sell_spec_witness :
    sampleP.sell 11 = (sampleP, some .InsufficientStock) ∧
    sampleP.sell 3 = ({ sampleP with quantity_in_stock := 7 }, none) := by
  constructor
  · exact (sell_spec sampleP 11).2.1 (by decide)
  · exact (sell_spec sampleP 3).2.2.1 (by decide)

/-- Claim C2: `Inventory.add_product p` raises `DuplicateId` when
`p.product_id` is already a key, leaving the mapping unchanged; when the
id is absent it appends the entry `(p.product_id, p)`. -/
theorem add_product_spec (inv : Inventory) (p : Product) :
    (keyMem inv.products p.product_id = true →
      inv.add_product p = (inv, some .DuplicateId)) ∧
    (keyMem inv.products p.product_id = false →
      inv.add_product p = (⟨inv.products ++ [(p.product_id, p)]⟩, none)) := by
  constructor
  · intro h; unfold Inventory.add_product; rw [if_pos h]
  · intro h
    unfold Inventory.add_product dictInsert
    rw [if_neg (by simp [h]), if_neg (by simp [h])]

/-- Witness for C2: a duplicate add fails without mutation, a fresh add
inserts. -/
theorem add_product_spec_witness :
    sampleInv.add_product sampleP = (sampleInv, some .DuplicateId) ∧
    (⟨[]⟩ : Inventory).add_product sampleP = (⟨[("E1", sampleP)]⟩, none) := by
  constructor
  · exact (add_product_spec sampleInv sampleP).1 (by decide)
  · exact (add_product_spec ⟨[]⟩ sampleP).2 (by decide)

/-- Claim C3: `sell_product` and `restock_product` raise
`UnknownProduct` (the `KeyError` of the dict lookup) when the id is not
a key, with the inventory unchanged; when the id is present they
delegate to the stored product's `sell`/`restock`, `sell_product`
propagating `InsufficientStock` with the inventory unchanged. -/
theorem sell_restock_unknown_spec (inv : Inventory) (pid : String) (q a : ℤ)
    (hnd : inv.KeysNodup) :
    (keyMem inv.products pid = false →
      inv.sell_product pid q = (inv, some .UnknownProduct) ∧
      inv.restock_product pid a = (inv, some .UnknownProduct)) ∧
    (∀ p, keyFind inv.products pid = some p →
      inv.sell_product pid q =
        (⟨dictInsert inv.products pid (p.sell q).1⟩, (p.sell q).2) ∧
      (q > p.quantity_in_stock →
        inv.sell_product pid q = (inv, some .InsufficientStock)) ∧
      inv.restock_product pid a =
        (⟨dictInsert inv.products pid (p.restock a)⟩, none)) := by
  constructor
  · intro h
    have hf : keyFind inv.products pid = none := keyFind_eq_none.2 h
    constructor
    · unfold Inventory.sell_product; rw [hf]
    · unfold Inventory.restock_product; rw [hf]
  · intro p hf
    refine ⟨?_, ?_, ?_⟩
    · unfold Inventory.sell_product; rw [hf]
    · intro hq
      have hs : p.sell q = (p, some .InsufficientStock) := by
        unfold Product.sell; rw [if_pos hq]
      have hd : dictInsert inv.products pid p = inv.products :=
        dictInsert_mem_self hnd (keyFind_mem hf)
      unfold Inventory.sell_product
      rw [hf]
      simp only [hs, hd]
    · unfold Inventory.restock_product; rw [hf]

/-- Witness for C3: an unknown id fails without mutation, an
insufficient sell on a present id fails without mutation. -/
theorem sell_restock_unknown_spec_witness :
    sampleInv.sell_product "X" 1 = (sampleInv, some .UnknownProduct) ∧
    sampleInv.sell_product "E1" 11 = (sampleInv, some .InsufficientStock) := by
  constructor
  · exact ((sell_restock_unknown_spec sampleInv "X" 1 1 (by decide)).1
      (by decide)).1
  · exact ((sell_restock_unknown_spec sampleInv "E1" 11 1 (by decide)).2 sampleP
      (by decide)).2.1 (by decide)

/-- Claim C4: non-negativity of all stock levels is an invariant of the
core operations — add of a product with non-negative stock, remove,
sell, restock by a non-negative amount, expiry pruning, and load of a
well-formed document — counting the state a failing operation leaves
behind (`save_to_file` returns the document and never touches the
state, so it is covered trivially). -/
theorem nonneg_invariant (inv : Inventory) (p : Product)
    (pid pid2 pid3 : String) (q amount : ℤ) (today : DateTime)
    (data : List Record)
    (h : inv.AllNonneg) (hp : 0 ≤ p.quantity_in_stock) (ha : 0 ≤ amount)
    (hdoc : ∀ r ∈ data, 0 ≤ r.quantity_in_stock) :
    (inv.add_product p).1.AllNonneg ∧
    (inv.remove_product pid).AllNonneg ∧
    (inv.sell_product pid2 q).1.AllNonneg ∧
    (inv.restock_product pid3 amount).1.AllNonneg ∧
    (inv.remove_expired_products today).AllNonneg ∧
    (inv.load_from_file data).1.AllNonneg := by
  refine ⟨?_, ?_, ?_, ?_, ?_, ?_⟩
  · unfold Inventory.add_product
    split
    · exact h
    · intro kv hkv
      rcases mem_dictInsert hkv with h1 | h1
      · rw [h1]; exact hp
      · exact h kv h1
  · intro kv hkv
    exact h kv (List.mem_of_mem_filter hkv)
  · unfold Inventory.sell_product
    rcases hf : keyFind inv.products pid2 with _ | p2
    · simpa using h
    · simp only []
      intro kv hkv
      rcases mem_dictInsert hkv with h1 | h1
      · rw [h1]
        exact sell_fst_nonneg (h _ (keyFind_mem hf))
      · exact h kv h1
  · unfold Inventory.restock_product
    rcases hf : keyFind inv.products pid3 with _ | p3
    · simpa using h
    · simp only []
      intro kv hkv
      rcases mem_dictInsert hkv with h1 | h1
      · rw [h1]
        have := h _ (keyFind_mem hf)
        simp only [] at this
        unfold Product.restock
        simp
        omega
      · exact h kv h1
  · intro kv hkv
    exact h kv (foldl_dictDel_subset
      (by simpa [Inventory.remove_expired_products] using hkv))
  · exact load_AllNonneg hdoc h

/-- Witness for C4: the invariant holds after a concrete sell and a
concrete load on the sample inventory. -/
theorem nonneg_invariant_witness :
    (sampleInv.sell_product "E1" 4).1.AllNonneg ∧
    (sampleInv.load_from_file [sampleP.to_dict]).1.AllNonneg := by
  have := nonneg_invariant sampleInv sampleP "Z" "E1" "E1" 4 1 ⟨0, 0⟩
    [sampleP.to_dict] (by decide) (by decide) (by decide) (by decide)
  exact ⟨this.2.2.1, this.2.2.2.2.2⟩

/-- Counterexample to claim C5 as stated: with expiry day `0` and the
clock at day `0`, one second past midnight, `is_expired` reports `true`
although the expiry date is not strictly before today (`0 < 0` is
false) — the code compares the parsed expiry (midnight) against the
full current `datetime`, not against the current date. -/
theorem is_expired_today_counterexample :
    Grocery.is_expired 0 ⟨0, 1⟩ = true ∧ ¬ ((0 : ℤ) < 0) := by decide

/-- Claim C5 as amended: `is_expired` is true exactly when the expiry
date is strictly before today's date, or equals today's date while the
clock is strictly past midnight.  A product whose expiry date equals
today is therefore reported expired except exactly at midnight. -/
theorem is_expired_spec (expiry_date : ℤ) (today : DateTime) :
    Grocery.is_expired expiry_date today = true ↔
      (expiry_date < today.day ∨
        (expiry_date = today.day ∧ 0 < today.sec)) := by
  unfold Grocery.is_expired DateTime.ltb strptime
  simp [Nat.pos_iff_ne_zero]

/-- Witness for C5 (amended): a concrete expired product. -/
theorem is_expired_spec_witness : Grocery.is_expired 3 ⟨5, 0⟩ = true :=
  (is_expired_spec 3 ⟨5, 0⟩).mpr (Or.inl (by decide))

/-- Claim C6: with unique keys, `remove_expired_products` keeps exactly
the entries that are not expired groceries: every expired `Grocery` is
removed, every non-expired entry remains unmodified, and non-`Grocery`
products are never removed. -/
theorem remove_expired_spec (inv : Inventory) (today : DateTime)
    (hnd : inv.KeysNodup) :
    (inv.remove_expired_products today).products
      = inv.products.filter (fun kv => !(kv.2.isExpiredGrocery today)) ∧
    (∀ kv, kv ∈ (inv.remove_expired_products today).products ↔
      (kv ∈ inv.products ∧ kv.2.isExpiredGrocery today = false)) ∧
    (∀ kv ∈ inv.products, kv.2.typeName ≠ "Grocery" →
      kv ∈ (inv.remove_expired_products today).products) := by
  have key : (inv.remove_expired_products today).products
      = inv.products.filter (fun kv => !(kv.2.isExpiredGrocery today)) := by
    unfold Inventory.remove_expired_products
    simp only [foldl_dictDel_eq_filter]
    apply List.filter_congr
    intro kv hkv
    congr 1
    rcases he : kv.2.isExpiredGrocery today with _ | _
    · rw [List.any_eq_false]
      intro pid hpid
      rcases List.mem_map.1 hpid with ⟨kv', hkv', hfst⟩
      have hkv'mem := List.mem_of_mem_filter hkv'
      have hkv'exp := List.of_mem_filter hkv'
      simp only [beq_iff_eq]
      intro hkk
      have hk1 : kv'.1 = kv.1 := by rw [hfst, hkk]
      have ha : (kv.1, kv'.2) ∈ inv.products := by
        have hx : kv' = (kv.1, kv'.2) := Prod.ext hk1 rfl
        rwa [hx] at hkv'mem
      have hb : (kv.1, kv.2) ∈ inv.products := hkv
      have hvv : kv'.2 = kv.2 := key_unique hnd ha hb
      rw [hvv] at hkv'exp
      simp [he] at hkv'exp
    · rw [List.any_eq_true]
      exact ⟨kv.1,
        List.mem_map.2 ⟨kv, List.mem_filter.2 ⟨hkv, by simp [he]⟩, rfl⟩,
        by simp⟩
  refine ⟨key, ?_, ?_⟩
  · intro kv
    rw [key, List.mem_filter]
    simp
  · intro kv hkv hty
    rw [key, List.mem_filter]
    exact ⟨hkv, by simp [isExpiredGrocery_of_typeName hty]⟩

/-- Witness for C6: pruning the sample inventory at a later date removes
the expired grocery and keeps the electronics entry. -/
theorem remove_expired_spec_witness :
    (sampleInv2.remove_expired_products ⟨400, 0⟩).products
      = [("E1", sampleP)] := by
  have := (remove_expired_spec sampleInv2 ⟨400, 0⟩ (by decide)).1
  rw [this]
  decide

/-- Claim C7: for a well-formed inventory (unique keys, each product
stored under its own id), `save_to_file` followed by `load_from_file`
into a fresh empty inventory reproduces the inventory exactly — same
ids, same variants, every field equal, no renormalization. -/
theorem save_load_roundtrip (inv : Inventory)
    (hnd : inv.KeysNodup)
    (hids : ∀ kv ∈ inv.products, kv.1 = kv.2.product_id) :
    (⟨[]⟩ : Inventory).load_from_file inv.save_to_file = (inv, none) := by
  unfold Inventory.save_to_file
  have := load_save_aux ⟨[]⟩ inv.products hids hnd (fun kv _ => rfl)
  simpa using this

/-- Witness for C7: the round-trip on the concrete two-product sample
inventory. -/
theorem save_load_roundtrip_witness :
    (⟨[]⟩ : Inventory).load_from_file sampleInv2.save_to_file
      = (sampleInv2, none) :=
  save_load_roundtrip sampleInv2 (by decide) (by decide)

/-- Claim C8: `total_inventory_value` is the sum over all held products
of `price * quantity_in_stock` (each product's `get_total_value`), and
it is `0` on the empty inventory. -/
theorem total_value_spec (inv : Inventory) :
    inv.total_inventory_value
      = (inv.products.map
          (fun kv => kv.2.price * (kv.2.quantity_in_stock : ℚ))).sum ∧
    (⟨[]⟩ : Inventory).total_inventory_value = 0 := by
  constructor
  · rfl
  · rfl

/-- Claim C9: `search_by_type s` returns exactly the held products whose
variant discriminator equals `s` up to (character-wise) case, and its
result depends on `s` only through its lowering, so the casing of the
query is irrelevant.  It is a pure function of the inventory. -/
theorem search_by_type_spec (inv : Inventory) (s s' : String) (p : Product) :
    (p ∈ inv.search_by_type s ↔
      (p ∈ inv.products.map (·.2) ∧ pyLower p.typeName = pyLower s)) ∧
    (pyLower s = pyLower s' →
      inv.search_by_type s = inv.search_by_type s') := by
  constructor
  · unfold Inventory.search_by_type
    rw [List.mem_filter]
    simp
  · intro h
    unfold Inventory.search_by_type
    rw [h]

/-- Witness for C9: a mixed-case query finds the sample grocery, and two
casings of the query give the same result. -/
theorem search_by_type_spec_witness :
    (sampleG ∈ sampleInv2.search_by_type "gRoCeRy" ∧
      pyLower sampleG.typeName = pyLower "gRoCeRy") ∧
    sampleInv2.search_by_type "GROCERY"
      = sampleInv2.search_by_type "grocery" := by
  constructor
  · exact ⟨(search_by_type_spec sampleInv2 "gRoCeRy" "x" sampleG).1.2
      ⟨by decide, by decide⟩, by decide⟩
  · exact (search_by_type_spec sampleInv2 "GROCERY" "grocery" sampleG).2
      (by decide)

/-- Claim C10: `Product.sell` only rejects `q > quantity_in_stock`, so
it accepts any `q ≤ quantity_in_stock` — including every negative `q`
when the stock is non-negative — and then sets the stock to
`quantity_in_stock - q`, i.e. a negative `q` increases the stock
by `|q|`. -/
theorem sell_negative_spec (p : Product) (q : ℤ) :
    (q ≤ p.quantity_in_stock →
      p.sell q = ({ p with quantity_in_stock := p.quantity_in_stock - q }, none)) ∧
    (q < 0 → 0 ≤ p.quantity_in_stock →
      p.sell q = ({ p with quantity_in_stock := p.quantity_in_stock + |q| }, none)) := by
  constructor
  · intro h; unfold Product.sell; rw [if_neg (by omega)]
  · intro hq hp
    unfold Product.sell
    rw [if_neg (by omega)]
    have : p.quantity_in_stock - q = p.quantity_in_stock + |q| := by
      rw [abs_of_neg hq]; ring
    rw [this]

/-- Witness for C10: selling `-4` of the sample product raises its stock
from `10` to `14`. -/
theorem sell_negative_spec_witness :
    sampleP.sell (-4) = ({ sampleP with quantity_in_stock := 14 }, none) := by
  have := (sell_negative_spec sampleP (-4)).2 (by decide) (by decide)
  simpa using this

end InvSys
